import Mathlib

/-!
Verification of the exegesis OpenAPI request-handling core: a shallow
embedding of the compiled operation model (security evaluation, parameter
parsing, parameter validation, error handling) together with theorems about
the claims of the specification.
-/

namespace Exegesis

/-- A single-quote character as a string, used inside error messages. -/
def sq : String := String.singleton (Char.ofNat 39)

/-- JSON-like values flowing through parameter parsing and validation. -/
inductive Json where
  | str (s : String)
  | num (n : Int)
  | obj (fields : List (String × Json))
  | arr (items : List Json)
  | null
deriving Repr

/-- JavaScript object lookup on an association list: first matching key wins. -/
def jsLookup {α : Type} : List (String × α) → String → Option α
  | [], _ => none
  | (k, v) :: rest, key => if k = key then some v else jsLookup rest key

/-- JavaScript object assignment `m[key] = v`: replaces the first matching key,
appends a new key in insertion order otherwise. -/
def jsSet {α : Type} : List (String × α) → String → α → List (String × α)
  | [], key, v => [(key, v)]
  | (k, v0) :: rest, key, v =>
    if k = key then (k, v) :: rest else (k, v0) :: jsSet rest key v

/- ----------------------------------------------------------------------
Default format validators (options.ts, `defaultValidators`).
---------------------------------------------------------------------- -/

/-- Source: `const INT_32_MIN = -1 * Math.pow(2, 31)`. -/
def INT_32_MIN : Int := -1 * 2 ^ 31

/-- Source: `const INT_32_MAX = Math.pow(2, 31) - 1`. -/
def INT_32_MAX : Int := 2 ^ 31 - 1

/-- Source: `const INT_64_MIN = Number.MIN_SAFE_INTEGER`, i.e. `-(2^53 - 1)`. -/
def INT_64_MIN : Int := -(2 ^ 53 - 1)

/-- Source: `const INT_64_MAX = Number.MAX_SAFE_INTEGER`, i.e. `2^53 - 1`. -/
def INT_64_MAX : Int := 2 ^ 53 - 1

/-- The validator `defaultValidators.int32.validate`:
`(value) => value >= INT_32_MIN && value <= INT_32_MAX`. -/
def int32Validate (value : Int) : Bool :=
  decide (INT_32_MIN ≤ value) && decide (value ≤ INT_32_MAX)

/-- The validator `defaultValidators.int64.validate`:
`(value) => value >= INT_64_MIN && value <= INT_64_MAX`. -/
def int64Validate (value : Int) : Bool :=
  decide (INT_64_MIN ≤ value) && decide (value ≤ INT_64_MAX)

/-- The validator `defaultValidators.double.validate`: `() => true`. -/
def doubleValidate (_value : Int) : Bool := true

/-- The validator `defaultValidators.float.validate`: `() => true`. -/
def floatValidate (_value : Int) : Bool := true

/-- The validator `defaultValidators.password`: `() => true`. -/
def passwordValidate (_value : Json) : Bool := true

/-- The validator `defaultValidators.binary`: `() => true`. -/
def binaryValidate (_value : Json) : Bool := true

/-- The validator `defaultValidators.byte`: `() => true`. -/
def byteValidate (_value : Json) : Bool := true

/-- The validator `defaultValidators.base64`: `() => true`. -/
def base64Validate (_value : Json) : Bool := true

end Exegesis

namespace Exegesis

/- ----------------------------------------------------------------------
Security evaluation (Operation in oas3/Parameter.ts: getSecurityRequirements,
getMissing, Operation._checkSecurityRequirement, Operation.authenticate).
---------------------------------------------------------------------- -/

/-- Result returned by an external authenticator (`ExegesisAuthenticated`).
The `scopes` and `roles` fields may be absent (`undefined` in the source). -/
structure Authenticated where
  user : String := ""
  scopes : Option (List String) := none
  roles : Option (List String) := none
deriving DecidableEq, Repr

/-- One OAS3 security requirement: scheme name to required scopes, in
declared (object-key insertion) order. -/
abbrev SecurityRequirement := List (String × List String)

/-- Source function `getMissing(required, have)`: if `have` is absent or empty, everything is
missing; otherwise the required entries not contained in `have`. -/
def getMissing (required : List String) (given : Option (List String)) : List String :=
  match given with
  | none => required
  | some [] => required
  | some h => required.filter (fun r => ¬ h.contains r)

/-- Source function `getSecurityRequirements(context, oaOperation)` from oas3/Parameter.ts.
`opSecurity`/`docSecurity` model `oaOperation.security` and
`context.openApiDoc.security` (`none` = the key is absent; `some []` is
truthy in JavaScript, so it is taken as-is by the `||` fallback chain).
`opRoles`/`docRoles` model the `x-exegesis-roles` values. Returns the
`{securityRequirements, requiredRoles}` pair or a compilation error. -/
def getSecurityRequirements (jsonPointer : String)
    (opSecurity docSecurity : Option (List SecurityRequirement))
    (opRoles docRoles : Option (List String)) :
    Except String (List SecurityRequirement × List String) :=
  let securityRequirements := opSecurity.getD (docSecurity.getD [])
  let requiredRoles := opRoles.getD (docRoles.getD [])
  if requiredRoles ≠ [] ∧ securityRequirements = [] then
    if opSecurity.isSome ∧ opRoles.isNone then
      -- Operation explicitly sets `security: []` but the roles came from the
      -- document level: roles are ignored for this operation.
      Except.ok (securityRequirements, [])
    else
      Except.error ("Operation " ++ jsonPointer ++
        " has no security requirements, but requires roles: " ++
        String.intercalate "," requiredRoles)
  else
    Except.ok (securityRequirements, requiredRoles)

/-- The error strings pushed by `_checkSecurityRequirement`:
`Authenticated using 'scheme' but missing required scopes: a, b.` -/
def authFailMsg (scheme kind : String) (missing : List String) : String :=
  "Authenticated using " ++ sq ++ scheme ++ sq ++ " but missing required " ++
    kind ++ ": " ++ String.intercalate ", " missing ++ "."

/-- The mutable state threaded through `Operation.authenticate`:
the tried-schemes cache, the collected error strings, and two
instrumentation traces used to state temporal claims — `trace` records, in
order, the scheme names whose external authenticator was actually invoked,
and `evals` records, in order, every scheme name evaluated (cache hit or
invocation) inside `_checkSecurityRequirement`. -/
structure CheckState where
  tried : List (String × Option Authenticated)
  errors : List String
  trace : List String
  evals : List String
deriving Repr

/-- The `for(const scheme of requiredSchemes)` loop of
`Operation._checkSecurityRequirement`: evaluates the schemes of one security
requirement in declared order, consulting and filling the tried-schemes
cache, accumulating scope/role errors, and building the per-scheme identity
map `result`. Returns `none` (JavaScript `undefined`) when the requirement
failed. `finished` models `exegesisContext.isResponseFinished()` (no step in
this pure model writes a response, so it is constant per request). -/
def checkSchemesLoop (auths : String → Option Authenticated)
    (requiredRoles : List String) (finished : Bool)
    (schemes : List (String × List String)) (st : CheckState)
    (result : List (String × Authenticated)) :
    CheckState × Option (List (String × Authenticated)) :=
  match schemes with
  | [] => (st, some result)
  | (scheme, requiredScopes) :: rest =>
    if finished then (st, none)
    else
      let st := { st with evals := st.evals ++ [scheme] }
      let next :=
        match jsLookup st.tried scheme with
        | some cached => (st, cached)
        | none =>
          let res := auths scheme
          ({ st with tried := st.tried ++ [(scheme, res)],
                     trace := st.trace ++ [scheme] }, res)
      match next.2 with
      | none => (next.1, none)
      | some auth =>
        let missingScopes := getMissing requiredScopes auth.scopes
        if missingScopes ≠ [] then
          ({ next.1 with errors := next.1.errors ++ [authFailMsg scheme "scopes" missingScopes] },
           none)
        else
          let missingRoles := getMissing requiredRoles auth.roles
          if missingRoles ≠ [] then
            ({ next.1 with errors := next.1.errors ++ [authFailMsg scheme "roles" missingRoles] },
             none)
          else
            checkSchemesLoop auths requiredRoles finished rest next.1
              (result ++ [(scheme, auth)])

/-- Source method `Operation._checkSecurityRequirement`: check one security requirement
starting from an empty per-scheme result. -/
def checkSecurityRequirement (auths : String → Option Authenticated)
    (requiredRoles : List String) (finished : Bool)
    (securityRequirement : SecurityRequirement) (st : CheckState) :
    CheckState × Option (List (String × Authenticated)) :=
  checkSchemesLoop auths requiredRoles finished securityRequirement st []

/-- The `for(const securityRequirement of this.securityRequirements)` loop of
`Operation.authenticate`: stops at the first successful requirement, or when
the response has been finished. -/
def authenticateLoop (auths : String → Option Authenticated)
    (requiredRoles : List String) (finished : Bool)
    (reqs : List SecurityRequirement) (st : CheckState) :
    CheckState × Option (List (String × Authenticated)) :=
  match reqs with
  | [] => (st, none)
  | r :: rest =>
    let step := checkSecurityRequirement auths requiredRoles finished r st
    match step.2 with
    | some res => (step.1, some res)
    | none =>
      if finished then (step.1, none)
      else authenticateLoop auths requiredRoles finished rest step.1

/-- The `authSchemes` rendering in `Operation.authenticate`:
one scheme renders as its name, several as `(a + b)`, comma-joined. -/
def authSchemes (reqs : List SecurityRequirement) : String :=
  String.intercalate ", " (reqs.map (fun requirement =>
    match requirement.map Prod.fst with
    | [s] => s
    | schemes => "(" ++ String.intercalate " + " schemes ++ ")"))

/-- The security-relevant compiled fields of an `Operation`. -/
structure OperationSecurity where
  securityRequirements : List SecurityRequirement
  requiredRoles : List String
deriving Repr

/-- Outcome of `Operation.authenticate`: `noAuthRequired` is the JavaScript
`undefined` return, `success` the per-scheme identity map, `httpError` a
thrown `HttpError`. -/
inductive AuthOutcome where
  | noAuthRequired
  | success (identity : List (String × Authenticated))
  | httpError (status : Nat) (message : String)
deriving DecidableEq, Repr

/-- Source method `Operation.authenticate`, also returning the trace of authenticator
invocations (scheme names, in invocation order). -/
def authenticate (op : OperationSecurity) (auths : String → Option Authenticated)
    (finished : Bool) : AuthOutcome × List String :=
  if op.securityRequirements = [] then
    -- No auth required: `return undefined`.
    (AuthOutcome.noAuthRequired, [])
  else
    let run := authenticateLoop auths op.requiredRoles finished
      op.securityRequirements ⟨[], [], [], []⟩
    match run.2 with
    | some res => (AuthOutcome.success res, run.1.trace)
    | none =>
      if run.1.errors ≠ [] then
        (AuthOutcome.httpError 403 (String.intercalate "\n" run.1.errors), run.1.trace)
      else
        (AuthOutcome.httpError 403
          ("Must authenticate using one of the following schemes: " ++
            authSchemes op.securityRequirements ++ "."), run.1.trace)

end Exegesis

namespace Exegesis

/- ----------------------------------------------------------------------
Parameter parsing (oas3/parameterParsers/index.ts:
deepObjectParser, _parseParameterGroup, parseParameterGroup,
parseQueryParameters) and the library functions they call.
---------------------------------------------------------------------- -/

/-- Split a character list on a separator character (structurally
recursive splitting, used to keep query-string parsing computable by the
kernel). -/
def splitList (sep : Char) : List Char → List (List Char)
  | [] => [[]]
  | c :: rest =>
    let r := splitList sep rest
    if c = sep then [] :: r
    else
      match r with
      | [] => [[c]]
      | h :: t => (c :: h) :: t

/-- Split a query string into its non-empty `&`-separated pieces, each split
at the first `=` into a key and a value; a piece without `=` yields an empty
value, as Node does. -/
def querystringPieces (query : String) : List (String × String) :=
  ((splitList (Char.ofNat 38) query.toList).filter (fun p => p ≠ [])).map
    (fun piece =>
      match splitList (Char.ofNat 61) piece with
      | [] => ("", "")
      | key :: rest =>
        (String.mk key, String.intercalate "=" (rest.map String.mk)))

/-- Fold one parsed key into the flat result: Node collects repeated keys
into an array. -/
def querystringInsert : List (String × Json) → String → String → List (String × Json)
  | [], key, v => [(key, Json.str v)]
  | (k, old) :: rest, key, v =>
    if k = key then
      match old with
      | Json.arr items => (k, Json.arr (items ++ [Json.str v])) :: rest
      | other => (k, Json.arr [other, Json.str v]) :: rest
    else (k, old) :: querystringInsert rest key v

/-- Models Node `querystring.parse(query, ampersand, equals, identity)` as
called with `{decodeURIComponent: (val) => val}`: split on the separators,
no percent-decoding, repeated keys collected into arrays, empty pieces
skipped. (The querystring module is Node library code, not repository
source.) -/
def querystringParse (query : String) : List (String × Json) :=
  (querystringPieces query).foldl
    (fun acc kv => querystringInsert acc kv.1 kv.2) []

/-- Recognise a one-level bracket key `base[prop]`. -/
def bracketKey (key : String) : Option (String × String) :=
  let cs := key.toList
  match cs.getLast? with
  | some c =>
    if c = Char.ofNat 93 then
      match splitList (Char.ofNat 91) cs.dropLast with
      | [base, prop] => some (String.mk base, String.mk prop)
      | _ => none
    else none
  | none => none

/-- Replace the first matching field or append a new one. -/
def setField : List (String × Json) → String → Json → List (String × Json)
  | [], key, v => [(key, v)]
  | (k, v0) :: rest, key, v =>
    if k = key then (k, v) :: rest else (k, v0) :: setField rest key v

/-- Fold one parsed key into the deep-object result, nesting `base[prop]`
keys one level. -/
def qsDeepInsert (acc : List (String × Json)) (key value : String) :
    List (String × Json) :=
  match bracketKey key with
  | some (base, prop) =>
    let nested :=
      match jsLookup acc base with
      | some (Json.obj fields) => Json.obj (setField fields prop (Json.str value))
      | _ => Json.obj [(prop, Json.str value)]
    setField acc base nested
  | none => setField acc key (Json.str value)

/-- Models `qs.parse(rawValue)` (the qs library is an external dependency,
not repository source): the whole raw query string parsed with the
nested-bracket syntax `name[prop]=value`, one level of nesting. -/
def qsDeepParse (query : String) : List (String × Json) :=
  (querystringPieces query).foldl
    (fun acc kv => qsDeepInsert acc kv.1 kv.2) []

/-- The shared per-request parse context (`ParserContext`): holds the cached
deep-object parse of the raw query string, absent until the first deepObject
parameter is parsed. -/
structure ParserContext where
  qsParsed : Option (List (String × Json)) := none
deriving Repr

/-- A compiled parameter parser, as in the source signature
`(location, rawParamValues, rawValue, parserContext)`. The extra `Nat`
result instruments how many times the call parsed the raw query string with
the deep-object bracket syntax (`qs.parse`); parsers that never touch the
raw query string report `0`. -/
def ParameterParser : Type :=
  String → List (String × Option Json) → String → ParserContext →
    Option Json × ParserContext × Nat

/-- Source function `deepObjectParser(location, _rawParamValues, rawValue, parserContext)`:
parse the raw query string once, cache the parse in the shared context, and
read the parameter name out of the cached parse. -/
def deepObjectParser : ParameterParser := fun location _rawParamValues rawValue parserContext =>
  match parserContext.qsParsed with
  | none =>
    let parsed := qsDeepParse rawValue
    (jsLookup parsed location, { qsParsed := some parsed }, 1)
  | some parsed => (jsLookup parsed location, parserContext, 0)

/-- Modelled from the spec: the generated form-style parser for a string
schema (`generateStructuredParser` in
oas3/parameterParsers/structuredParser.ts is not in the sources). Per the
spec, the form style is the query default and, for a string schema, the
parser returns the raw value recorded for the parameter name in the parsed
query values. -/
def formStringParameterParser : ParameterParser := fun location rawParamValues _rawValue parserContext =>
  ((jsLookup rawParamValues location).join, parserContext, 0)

/-- A compiled parameter: its location name plus its generated parser. -/
structure CompiledParam where
  name : String
  parser : ParameterParser

/-- Result of parsing one parameter group: the `ParametersMap` object, the
final shared parse context, and the instrumented total number of deep-object
query-string parses. -/
structure GroupParseResult where
  values : List (String × Option Json)
  ctx : ParserContext
  qsParseCount : Nat

/-- The `params.reduce` loop of `_parseParameterGroup`, threading the shared
parser context created at the top of the function. -/
def parseGroupLoop (params : List CompiledParam)
    (rawValues : List (String × Option Json)) (rawQueryString : String)
    (acc : List (String × Option Json)) (ctx : ParserContext) (count : Nat) :
    GroupParseResult :=
  match params with
  | [] => ⟨acc, ctx, count⟩
  | p :: rest =>
    let step := p.parser p.name rawValues rawQueryString ctx
    parseGroupLoop rest rawValues rawQueryString
      (jsSet acc p.name step.1) step.2.1 (count + step.2.2)

/-- Source function `_parseParameterGroup(params, rawValues, rawQueryString)`: a fresh shared
parser context, then each parameter parsed in order into one result map. -/
def parseParameterGroupRaw (params : List CompiledParam)
    (rawValues : List (String × Option Json)) (rawQueryString : String) :
    GroupParseResult :=
  parseGroupLoop params rawValues rawQueryString [] {} 0

/-- Source function `parseParameterGroup(params, rawValues)`. -/
def parseParameterGroup (params : List CompiledParam)
    (rawValues : List (String × Option Json)) : GroupParseResult :=
  parseParameterGroupRaw params rawValues ""

/-- Source function `parseQueryParameters(params, query)`: the raw values come from the
Node querystring parse of the query string with an identity decoder. -/
def parseQueryParameters (params : List CompiledParam) (query : String) :
    GroupParseResult :=
  parseParameterGroupRaw params
    ((querystringParse query).map (fun kv => (kv.1, some kv.2))) query

end Exegesis

namespace Exegesis

/- ----------------------------------------------------------------------
The compiled Operation parameter set (oas3/Parameter.ts: the constructor
reduce over all parameters, Operation.parseParameters,
Operation.validateParameters) and the Parameter constructor.
---------------------------------------------------------------------- -/

/-- The `in` field of an OAS3 parameter (plus the synthetic server group). -/
inductive ParamLocation where
  | query
  | header
  | path
  | server
  | cookie
deriving DecidableEq, Repr

/-- A declared parameter as the Operation constructor sees it: its
`oaParameter.in` location and its compiled form. -/
structure DeclaredParam where
  location : ParamLocation
  param : CompiledParam

/-- The `{query, header, path, server, cookie}` record used for both
compiled parameters and parsed parameter values. -/
structure ParametersByLocation (α : Type) where
  query : α
  header : α
  path : α
  server : α
  cookie : α

/-- One step of the `allParameters.reduce` in the Operation constructor:
`result[parameter.oaParameter.in].push(parameter)`. -/
def groupStep (result : ParametersByLocation (List CompiledParam))
    (p : DeclaredParam) : ParametersByLocation (List CompiledParam) :=
  match p.location with
  | ParamLocation.query => { result with query := result.query ++ [p.param] }
  | ParamLocation.header => { result with header := result.header ++ [p.param] }
  | ParamLocation.path => { result with path := result.path ++ [p.param] }
  | ParamLocation.server => { result with server := result.server ++ [p.param] }
  | ParamLocation.cookie => { result with cookie := result.cookie ++ [p.param] }

/-- The `allParameters.reduce` in the Operation constructor: push every
parameter into the group named by its `in` field, starting from
`{query: [], header: [], path: [], server: [], cookie: []}`. -/
def groupParameters (allParameters : List DeclaredParam) :
    ParametersByLocation (List CompiledParam) :=
  allParameters.foldl groupStep ⟨[], [], [], [], []⟩

/-- The raw request-time inputs of `Operation.parseParameters`: raw headers,
raw path params and server params from the path resolver, and the raw query
string; any of them may be absent (`undefined`). -/
structure RawRequest where
  headers : Option (List (String × Option Json))
  rawPathParams : Option (List (String × Option Json))
  serverParams : Option (List (String × Option Json))
  queryString : Option String

/-- Source method `Operation.parseParameters(params)`: query parameters via
`parseQueryParameters` on the raw query string, headers and path params via
`parseParameterGroup` (headers default to `{}`, path params only when
present), server params passed through, and an always-empty cookie map. An
absent query string behaves as the empty query string (both Node
`querystring.parse` and `qs.parse` return `{}` for `undefined`). -/
def Operation.parseParameters (compiled : ParametersByLocation (List CompiledParam))
    (params : RawRequest) : ParametersByLocation (List (String × Option Json)) :=
  { query := (parseQueryParameters compiled.query (params.queryString.getD "")).values
    header := (parseParameterGroup compiled.header (params.headers.getD [])).values
    server := params.serverParams.getD []
    path :=
      match params.rawPathParams with
      | some raw => (parseParameterGroup compiled.path raw).values
      | none => []
    cookie := [] }

/-- The `{errors, value}` record returned by a generated parameter
validator; `errors` is `null` or a list of validation error messages. -/
structure ValidationResult where
  errors : Option (List String)
  value : Option Json

/-- A compiled parameter with its generated validator
(`parameter.validate`). -/
structure ValidatedParam where
  name : String
  validate : Option Json → ValidationResult

/-- The inner `for(const parameter of parameters)` loop of
`Operation.validateParameters`: accumulate errors across parameters, and on
a non-error result write the (possibly coerced) value back into the values
map. `errors` is `null` until the first error list is concatenated. -/
def validateParamList (params : List ValidatedParam)
    (values : List (String × Option Json)) (errors : Option (List String)) :
    Option (List String) × List (String × Option Json) :=
  match params with
  | [] => (errors, values)
  | p :: rest =>
    let innerResult := p.validate ((jsLookup values p.name).join)
    match innerResult.errors with
    | some errs =>
      if errs ≠ [] then
        validateParamList rest values (some (errors.getD [] ++ errs))
      else
        validateParamList rest (jsSet values p.name innerResult.value) errors
    | none =>
      validateParamList rest (jsSet values p.name innerResult.value) errors

/-- Source method `Operation.validateParameters(parameterValues)` (the version in
oas3/Parameter.ts): walk the locations in the object-key order of the value
produced by `parseParameters` — query, header, server, path, cookie —
validating each declared parameter of that location, and return the
aggregated errors (`null` when every parameter validated) together with the
updated values. -/
def Operation.validateParameters (compiled : ParametersByLocation (List ValidatedParam))
    (parameterValues : ParametersByLocation (List (String × Option Json))) :
    Option (List String) × ParametersByLocation (List (String × Option Json)) :=
  let stepQ := validateParamList compiled.query parameterValues.query none
  let stepH := validateParamList compiled.header parameterValues.header stepQ.1
  let stepS := validateParamList compiled.server parameterValues.server stepH.1
  let stepP := validateParamList compiled.path parameterValues.path stepS.1
  let stepC := validateParamList compiled.cookie parameterValues.cookie stepP.1
  (stepC.1, ⟨stepQ.2, stepH.2, stepP.2, stepS.2, stepC.2⟩)

/-- Modelled from the spec: the generated request validator
(`generateRequestValidator` in oas3/Schema/validators.ts is not in the
sources) for the schema `{type: string}` with `required = false`: a string
value passes through unchanged, an absent value passes (the parameter is not
required), and any non-string value yields one schema-mismatch error. -/
def stringSchemaValidate (value : Option Json) : ValidationResult :=
  match value with
  | none => ⟨none, none⟩
  | some (Json.str s) => ⟨none, some (Json.str s)⟩
  | some v => ⟨some ["should be string"], some v⟩

/-- The compiled shape of a Parameter produced by the constructor. -/
inductive CompiledParameterKind where
  | schemaParam
  | contentParam (mediaTypeString : String)
deriving DecidableEq, Repr

/-- The `Parameter` constructor (oas3/Parameter.ts) restricted to its
schema/content dispatch. `content` is `some entries` when the descriptor has
a `content` object (an empty object is truthy in JavaScript, so
`some []` still enters the content branch, where `Object.keys(content)[0]`
is `undefined` and the registry lookup cannot succeed — the
`MimeTypeRegistry` itself is not in the sources). `registeredParsers` lists
the media types with a registered string parser; the registry lookup is
modelled as exact-match containment. -/
def mkParameter (name : String) (schema : Option Json)
    (content : Option (List (String × Json))) (registeredParsers : List String) :
    Except String CompiledParameterKind :=
  match schema with
  | some _ => Except.ok CompiledParameterKind.schemaParam
  | none =>
    match content with
    | some entries =>
      match (entries.map Prod.fst).head? with
      | some mediaTypeString =>
        if registeredParsers.contains mediaTypeString then
          Except.ok (CompiledParameterKind.contentParam mediaTypeString)
        else
          Except.error ("Unable to find suitable mime type parser for type " ++
            mediaTypeString ++ " in /content")
      | none =>
        Except.error
          "Unable to find suitable mime type parser for type undefined in /content"
    | none =>
      Except.error ("Parameter " ++ name ++ " should have a " ++ sq ++ "schema" ++
        sq ++ " or a " ++ sq ++ "content" ++ sq)

/-- Returns `true` exactly when an `Except` holds a success value. -/
def exceptOk {ε α : Type} : Except ε α → Bool
  | Except.ok _ => true
  | Except.error _ => false

end Exegesis

namespace Exegesis

/- ----------------------------------------------------------------------
Error handling in the runner (core/exegesisRunner.ts: handleError and the
catch branch of exegesisRunner).
---------------------------------------------------------------------- -/

/-- One entry of a ValidationError `errors` array. -/
structure ValidationErrorItem where
  message : String
deriving DecidableEq, Repr

/-- An error thrown during the request pipeline. A `validationError`
models the `ValidationError` class (src/errors.ts is not in the sources;
modelled from the spec: a validation error carries a numeric 400-class
status and a list of validation error items). Any other thrown error is
`otherError`, whose `status` is `some n` exactly when the JavaScript value
has an integer `status` field (`Number.isInteger(err.status)`). -/
inductive PipelineError where
  | validationError (status : Int) (message : String) (errors : List ValidationErrorItem)
  | otherError (status : Option Int) (message : String)
deriving DecidableEq, Repr

/-- The JSON error body written by `handleError`. -/
inductive ErrorBody where
  | validationBody (message : String) (errors : List ValidationErrorItem)
  | messageBody (message : String)
deriving DecidableEq, Repr

/-- The `HttpResult` assembled by `handleError`. -/
structure ErrorHttpResult where
  status : Int
  headers : List (String × String)
  body : ErrorBody
deriving DecidableEq, Repr

/-- Source function `handleError(err)` from core/exegesisRunner.ts: a ValidationError turns
into a JSON body `{message: Validation errors, errors}` with the error
status; any other error with an integer status turns into
`{message: err.message}` with that status; everything else is re-thrown. -/
def handleError : PipelineError → Except PipelineError ErrorHttpResult
  | PipelineError.validationError status _ errors =>
    Except.ok ⟨status, [("content-type", "application/json")],
      ErrorBody.validationBody "Validation errors" errors⟩
  | PipelineError.otherError (some status) message =>
    Except.ok ⟨status, [("content-type", "application/json")],
      ErrorBody.messageBody message⟩
  | PipelineError.otherError none message =>
    Except.error (PipelineError.otherError none message)

/-- The `catch` branch of `exegesisRunner`: with `autoHandleHttpErrors`
enabled errors go through `handleError`, otherwise they are re-thrown. -/
def runnerHandleError (autoHandleHttpErrors : Bool) (err : PipelineError) :
    Except PipelineError ErrorHttpResult :=
  if autoHandleHttpErrors then handleError err else Except.error err

end Exegesis

namespace Exegesis

/- ----------------------------------------------------------------------
Theorems for the claims.
---------------------------------------------------------------------- -/

/-- C6 counterexample: the default `int32` validator accepts
`-2147483648 = -(2^31)`, a value strictly below `-(2^31 - 1)`, so it does
not accept a number if and only if the number lies within `±(2^31 - 1)`. -/
theorem c6_int32_lower_bound_counterexample :
    int32Validate (-2147483648) = true ∧ ((-2147483648 : Int) < -(2 ^ 31 - 1)) := by
  decide

/-- C6 (amended): the default `int32` validator accepts a number exactly when
it lies in `[-(2^31), 2^31 - 1]` (the lower bound is `-2^31`, not
`-(2^31 - 1)`); the `int64` validator accepts exactly the numbers within the
platform safe-integer bounds `±(2^53 - 1)`; the `double` and `float`
validators accept every number; and the `password`, `binary`, `byte` and
`base64` validators accept every value unconditionally. -/
theorem c6_default_format_validators (v : Int) (j : Json) :
    (int32Validate v = true ↔ -(2 ^ 31) ≤ v ∧ v ≤ 2 ^ 31 - 1) ∧
    (int64Validate v = true ↔ -(2 ^ 53 - 1) ≤ v ∧ v ≤ 2 ^ 53 - 1) ∧
    doubleValidate v = true ∧ floatValidate v = true ∧
    passwordValidate j = true ∧ binaryValidate j = true ∧
    byteValidate j = true ∧ base64Validate j = true := by
  refine ⟨?_, ?_, rfl, rfl, rfl, rfl, rfl, rfl⟩ <;>
    simp [int32Validate, int64Validate, INT_32_MIN, INT_32_MAX, INT_64_MIN, INT_64_MAX]

/-- C5 counterexample: a parameter descriptor whose `content` object has two
media-type keys compiles successfully (the constructor silently uses the
first key), refuting the claim that `content` with other than exactly one
key fails compilation. -/
theorem c5_two_key_content_counterexample :
    exceptOk (mkParameter "p" none
      (some [("application/json", Json.null), ("text/plain", Json.null)])
      ["application/json", "text/plain"]) = true := rfl

/-- C5 (amended): a descriptor with neither `schema` nor `content` fails
compilation; a `content` object with zero keys fails compilation (no parser
can be found for the missing media type); but a `content` object with more
than one key is not rejected — the constructor uses the first key alone, and
compilation succeeds exactly when that first media type has a registered
parser. -/
theorem c5_parameter_schema_content_dispatch (name : String)
    (registered : List String) (s : Json) (e : String × Json)
    (rest : List (String × Json)) :
    exceptOk (mkParameter name none none registered) = false ∧
    exceptOk (mkParameter name none (some []) registered) = false ∧
    exceptOk (mkParameter name (some s) none registered) = true ∧
    exceptOk (mkParameter name none (some (e :: rest)) registered) =
      registered.contains e.1 := by
  refine ⟨rfl, rfl, rfl, ?_⟩
  by_cases h : e.1 ∈ registered
  · simp [mkParameter, h, exceptOk]
  · simp [mkParameter, h, exceptOk]

/-- C4 counterexample: an operation that explicitly declares `security: []`
but also declares its own non-empty `x-exegesis-roles` still fails
compilation, refuting the claim that an explicit `security: []` always makes
compilation succeed with the roles ignored. -/
theorem c4_op_level_roles_counterexample :
    getSecurityRequirements "/paths/~1path/get" (some []) none (some ["admin"]) none =
      Except.error
        "Operation /paths/~1path/get has no security requirements, but requires roles: admin" := by
  rfl

/-- C4 (amended): when the effective required-role list is non-empty and the
effective security-requirement list is empty, compilation succeeds (with the
required roles ignored) exactly when the operation explicitly declared its
own `security` (necessarily `[]`) and did not itself declare
`x-exegesis-roles` (the roles came from the document level); in every other
case compilation fails with an error naming the roles. -/
theorem c4_roles_without_security (ptr : String)
    (opSecurity docSecurity : Option (List SecurityRequirement))
    (opRoles docRoles : Option (List String))
    (hRoles : opRoles.getD (docRoles.getD []) ≠ [])
    (hReqs : opSecurity.getD (docSecurity.getD []) = []) :
    (opSecurity.isSome ∧ opRoles = none →
      getSecurityRequirements ptr opSecurity docSecurity opRoles docRoles =
        Except.ok ([], [])) ∧
    (¬ (opSecurity.isSome ∧ opRoles = none) →
      getSecurityRequirements ptr opSecurity docSecurity opRoles docRoles =
        Except.error ("Operation " ++ ptr ++
          " has no security requirements, but requires roles: " ++
          String.intercalate "," (opRoles.getD (docRoles.getD [])))) := by
  constructor
  · intro h
    simp [getSecurityRequirements, hRoles, hReqs, h.1, h.2]
  · intro h
    rw [not_and_or] at h
    rcases h with h | h
    · simp [getSecurityRequirements, hRoles, hReqs, h]
    · simp [getSecurityRequirements, hRoles, hReqs, h, Option.isNone_iff_eq_none]

/-- C4 witness: roles declared at the document level with an explicit
`security: []` on the operation compile to an empty role list. -/
theorem c4_witness :
    getSecurityRequirements "/p" (some []) none none (some ["admin"]) =
      Except.ok ([], []) :=
  (c4_roles_without_security "/p" (some []) none none (some ["admin"])
    (by decide) (by decide)).1 ⟨rfl, rfl⟩

/-- C9: with auto-handling of HTTP errors enabled, a ValidationError is
converted into an HTTP result with the error status, a
`content-type: application/json` header and the JSON body
`{message: Validation errors, errors}`; any other error carrying an integer
status is converted into an HTTP result with that status, the same header
and the body `{message: err.message}`; and an error without an integer
status is re-thrown to the caller unchanged. -/
theorem c9_auto_handle_http_errors (err : PipelineError) :
    (∀ status msg errs, err = PipelineError.validationError status msg errs →
      runnerHandleError true err = Except.ok ⟨status,
        [("content-type", "application/json")],
        ErrorBody.validationBody "Validation errors" errs⟩) ∧
    (∀ status msg, err = PipelineError.otherError (some status) msg →
      runnerHandleError true err = Except.ok ⟨status,
        [("content-type", "application/json")], ErrorBody.messageBody msg⟩) ∧
    (∀ msg, err = PipelineError.otherError none msg →
      runnerHandleError true err = Except.error err) := by
  refine ⟨fun status msg errs h => ?_, fun status msg h => ?_, fun msg h => ?_⟩ <;>
    subst h <;> rfl

/-- C9 witness: a plain error with integer status 500 becomes a 500 JSON
result. -/
theorem c9_witness :
    runnerHandleError true (PipelineError.otherError (some 500) "boom") =
      Except.ok ⟨500, [("content-type", "application/json")],
        ErrorBody.messageBody "boom"⟩ :=
  (c9_auto_handle_http_errors (PipelineError.otherError (some 500) "boom")).2.1
    500 "boom" rfl

end Exegesis

namespace Exegesis

/-- C1 (evaluation at the failing input): for every configured authenticator
table, every request context and every role list, `Operation.authenticate`
on an operation with zero security requirements returns `undefined`
(`noAuthRequired`) without invoking any authenticator — not an empty
identity map — and an explicit `security: []` on the operation always
compiles to zero security requirements regardless of the global security
defaults. -/
theorem c1_no_security_requirements_returns_undefined
    (requiredRoles : List String) (auths : String → Option Authenticated)
    (finished : Bool) (ptr : String)
    (docSecurity : Option (List SecurityRequirement))
    (docRoles : Option (List String)) :
    authenticate ⟨[], requiredRoles⟩ auths finished =
      (AuthOutcome.noAuthRequired, []) ∧
    ∃ roles, getSecurityRequirements ptr (some []) docSecurity none docRoles =
      Except.ok ([], roles) := by
  constructor
  · rfl
  · refine ⟨[], ?_⟩
    by_cases h : docRoles.getD [] = []
    · simp [getSecurityRequirements, h]
    · simp [getSecurityRequirements, h]

/-- The compiled validator set for an operation with a single query-form
string parameter named `myparam` (schema `{type: string}`). -/
def myparamValidators : ParametersByLocation (List ValidatedParam) :=
  ⟨[⟨"myparam", stringSchemaValidate⟩], [], [], [], []⟩

/-- C7: with a query-form string parameter named `myparam`,
`parseQueryParameters` on the query string `myparam=7` yields
`{myparam: 7-as-a-string}`; `Operation.validateParameters` on that result
yields no errors (`null`); and validating the parameter value
`{foo: bar}` yields at least one validation error. -/
theorem c7_query_param_parse_and_validate :
    (parseQueryParameters [⟨"myparam", formStringParameterParser⟩] "myparam=7").values =
      [("myparam", some (Json.str "7"))] ∧
    (Operation.validateParameters myparamValidators
      ⟨[("myparam", some (Json.str "7"))], [], [], [], []⟩).1 = none ∧
    ∃ errs,
      (Operation.validateParameters myparamValidators
        ⟨[("myparam", some (Json.obj [("foo", Json.str "bar")]))], [], [], [], []⟩).1 =
          some errs ∧ errs ≠ [] := by
  refine ⟨rfl, rfl, ⟨["should be string"], rfl, by decide⟩⟩

/-- The cookie group of the constructor fold collects exactly the declared
cookie parameters, in declaration order. -/
theorem foldl_groupStep_cookie (ps : List DeclaredParam)
    (acc : ParametersByLocation (List CompiledParam)) :
    (ps.foldl groupStep acc).cookie =
      acc.cookie ++
        (ps.filter (fun p => p.location == ParamLocation.cookie)).map
          (fun p => p.param) := by
  induction ps generalizing acc with
  | nil => simp
  | cons p rest ih =>
    rw [List.foldl_cons, ih]
    cases hp : p.location <;>
      simp [groupStep, hp, List.filter_cons]

/-- C10: the compiled parameter set of an operation collects every declared
cookie parameter into its cookie group, yet `Operation.parseParameters`
returns an empty map for the cookie location on every input (headers, raw
path params, server params, query string). -/
theorem c10_cookie_parameters_never_parsed (ps : List DeclaredParam)
    (req : RawRequest) :
    (groupParameters ps).cookie =
      (ps.filter (fun p => p.location == ParamLocation.cookie)).map
        (fun p => p.param) ∧
    (Operation.parseParameters (groupParameters ps) req).cookie = [] := by
  constructor
  · rw [groupParameters, foldl_groupStep_cookie]
    rfl
  · rfl

end Exegesis

namespace Exegesis

/-- An entry of a JavaScript-style assignment result is either an old entry
or the assigned pair. -/
theorem mem_jsSet {α : Type} (l : List (String × α)) (k : String) (v : α)
    (kv : String × α) (h : kv ∈ jsSet l k v) : kv ∈ l ∨ kv = (k, v) := by
  induction l with
  | nil =>
    simp [jsSet] at h
    exact Or.inr h
  | cons p rest ih =>
    obtain ⟨k0, v0⟩ := p
    rw [jsSet] at h
    by_cases hk : k0 = k
    · rw [if_pos hk] at h
      rcases List.mem_cons.mp h with h1 | h1
      · right
        rw [h1, hk]
      · left
        exact List.mem_cons_of_mem _ h1
    · rw [if_neg hk] at h
      rcases List.mem_cons.mp h with h1 | h1
      · left
        exact h1 ▸ List.mem_cons_self _ _
      · rcases ih h1 with h2 | h2
        · left
          exact List.mem_cons_of_mem _ h2
        · right
          exact h2

/-- A compiled deepObject parameter named `n`. -/
def mkDeep (n : String) : CompiledParam := ⟨n, deepObjectParser⟩

/-- Once the shared parse context caches the deep-object parse of the query
string, the rest of the group parse performs no further deep-object parses,
leaves the cache untouched, and draws every value from the cached parse. -/
theorem parseGroupLoop_deepObject_cached (names : List String)
    (raw : List (String × Option Json)) (q : String)
    (acc : List (String × Option Json)) (count : Nat)
    (hacc : ∀ kv ∈ acc, kv.2 = jsLookup (qsDeepParse q) kv.1) :
    (parseGroupLoop (names.map mkDeep) raw q acc ⟨some (qsDeepParse q)⟩ count).qsParseCount =
      count ∧
    (parseGroupLoop (names.map mkDeep) raw q acc ⟨some (qsDeepParse q)⟩ count).ctx.qsParsed =
      some (qsDeepParse q) ∧
    ∀ kv ∈ (parseGroupLoop (names.map mkDeep) raw q acc ⟨some (qsDeepParse q)⟩ count).values,
      kv.2 = jsLookup (qsDeepParse q) kv.1 := by
  induction names generalizing acc count with
  | nil => exact ⟨rfl, rfl, hacc⟩
  | cons n rest ih =>
    have hstep : parseGroupLoop ((n :: rest).map mkDeep) raw q acc
        ⟨some (qsDeepParse q)⟩ count =
        parseGroupLoop (rest.map mkDeep) raw q
          (jsSet acc n (jsLookup (qsDeepParse q) n)) ⟨some (qsDeepParse q)⟩
          (count + 0) := rfl
    rw [hstep]
    refine ih _ _ (fun kv hkv => ?_)
    rcases mem_jsSet _ _ _ _ hkv with h1 | h1
    · exact hacc kv h1
    · rw [h1]

/-- C8: within one parameter-group parse, a group of deepObject parameters
parses the raw query string with the deep-object bracket syntax at most once
— exactly once when the group is non-empty, after which the parse is cached
in the shared parser context — and every parsed parameter value is the
lookup of that parameter name in that single parse. -/
theorem c8_deep_object_parses_query_string_once (names : List String)
    (raw : List (String × Option Json)) (q : String) :
    (parseParameterGroupRaw (names.map mkDeep) raw q).qsParseCount ≤ 1 ∧
    (names ≠ [] →
      (parseParameterGroupRaw (names.map mkDeep) raw q).qsParseCount = 1 ∧
      (parseParameterGroupRaw (names.map mkDeep) raw q).ctx.qsParsed =
        some (qsDeepParse q)) ∧
    ∀ kv ∈ (parseParameterGroupRaw (names.map mkDeep) raw q).values,
      kv.2 = jsLookup (qsDeepParse q) kv.1 := by
  cases names with
  | nil =>
    refine ⟨by simp [parseParameterGroupRaw, parseGroupLoop], fun h => absurd rfl h,
      fun kv hkv => ?_⟩
    simp [parseParameterGroupRaw, parseGroupLoop] at hkv
  | cons n rest =>
    have hstep : parseParameterGroupRaw ((n :: rest).map mkDeep) raw q =
        parseGroupLoop (rest.map mkDeep) raw q
          (jsSet [] n (jsLookup (qsDeepParse q) n)) ⟨some (qsDeepParse q)⟩
          (0 + 1) := rfl
    have hacc : ∀ kv ∈ jsSet ([] : List (String × Option Json)) n
        (jsLookup (qsDeepParse q) n), kv.2 = jsLookup (qsDeepParse q) kv.1 := by
      intro kv hkv
      rcases mem_jsSet _ _ _ _ hkv with h1 | h1
      · simp at h1
      · rw [h1]
    obtain ⟨h1, h2, h3⟩ := parseGroupLoop_deepObject_cached rest raw q
      (jsSet [] n (jsLookup (qsDeepParse q) n)) (0 + 1) hacc
    rw [hstep]
    exact ⟨by simp [h1], fun _ => ⟨by simp [h1], h2⟩, h3⟩

/-- C8 witness: two deepObject parameters over the query string
`a[x]=1&b[y]=2` trigger exactly one deep-object parse, cached in the shared
context. -/
theorem c8_witness :
    (parseParameterGroupRaw (["a", "b"].map mkDeep) [] "a[x]=1&b[y]=2").qsParseCount = 1 ∧
    (parseParameterGroupRaw (["a", "b"].map mkDeep) [] "a[x]=1&b[y]=2").ctx.qsParsed =
      some (qsDeepParse "a[x]=1&b[y]=2") :=
  (c8_deep_object_parses_query_string_once ["a", "b"] [] "a[x]=1&b[y]=2").2.1
    (by decide)

end Exegesis

namespace Exegesis

/-- Lookup in an appended association list: the left list wins. -/
theorem jsLookup_append {α : Type} (l1 l2 : List (String × α)) (k : String) :
    jsLookup (l1 ++ l2) k = (jsLookup l1 k).elim (jsLookup l2 k) some := by
  induction l1 with
  | nil => simp [jsLookup]
  | cons p rest ih =>
    obtain ⟨k0, v0⟩ := p
    by_cases hk : k0 = k <;> simp [jsLookup, hk, ih]

/-- Appending an entry with a fresh key preserves the cache-membership
invariant for every already-recorded scheme. -/
theorem jsLookup_append_isSome {α : Type} (l1 l2 : List (String × α))
    (k : String) (h : (jsLookup l1 k).isSome = true) :
    (jsLookup (l1 ++ l2) k).isSome = true := by
  rw [jsLookup_append]
  cases hL : jsLookup l1 k with
  | none => rw [hL] at h; exact absurd h (by simp)
  | some v => simp

/-- A list with one fresh element appended stays duplicate-free. -/
theorem nodup_append_singleton {α : Type} {a : α} {l : List α}
    (h : l.Nodup) (ha : a ∉ l) : (l ++ [a]).Nodup := by
  simp [List.nodup_append, h, ha]

/-- Invariant of the `_checkSecurityRequirement` scheme loop: starting from a
state whose invocation trace is duplicate-free and entirely recorded in the
tried-schemes cache, the loop (1) preserves that invariant, (2) extends the
invocation trace by a subsequence of the declared scheme names (each
authenticator invoked at most once, in declared order), and (3) extends the
evaluation trace by a prefix of the declared scheme names (schemes evaluated
strictly in declared order, stopping early only on failure). -/
theorem checkSchemesLoop_trace_spec (auths : String → Option Authenticated)
    (roles : List String) (finished : Bool)
    (schemes : List (String × List String)) (st : CheckState)
    (result : List (String × Authenticated))
    (hNodup : st.trace.Nodup)
    (hSome : ∀ s ∈ st.trace, (jsLookup st.tried s).isSome = true) :
    ((checkSchemesLoop auths roles finished schemes st result).1.trace.Nodup ∧
      ∀ s ∈ (checkSchemesLoop auths roles finished schemes st result).1.trace,
        (jsLookup (checkSchemesLoop auths roles finished schemes st result).1.tried s).isSome =
          true) ∧
    (∃ t, (checkSchemesLoop auths roles finished schemes st result).1.trace =
        st.trace ++ t ∧ t.Sublist (schemes.map Prod.fst)) ∧
    (∃ e r, (checkSchemesLoop auths roles finished schemes st result).1.evals =
        st.evals ++ e ∧ e ++ r = schemes.map Prod.fst) := by
  induction schemes generalizing st result with
  | nil =>
    exact ⟨⟨hNodup, hSome⟩, ⟨[], by simp [checkSchemesLoop], List.nil_sublist _⟩,
      ⟨[], [], by simp [checkSchemesLoop], rfl⟩⟩
  | cons sr rest ih =>
    obtain ⟨scheme, requiredScopes⟩ := sr
    cases finished with
    | true =>
      exact ⟨⟨hNodup, hSome⟩, ⟨[], by simp [checkSchemesLoop], List.nil_sublist _⟩,
        ⟨[], scheme :: rest.map Prod.fst, by simp [checkSchemesLoop], rfl⟩⟩
    | false =>
      cases hL : jsLookup st.tried scheme with
      | some cached =>
        cases cached with
        | none =>
          have hbody : checkSchemesLoop auths roles false
              ((scheme, requiredScopes) :: rest) st result =
              (⟨st.tried, st.errors, st.trace, st.evals ++ [scheme]⟩, none) := by
            simp only [checkSchemesLoop, hL]
            rfl
          rw [hbody]
          exact ⟨⟨hNodup, hSome⟩, ⟨[], by simp, List.nil_sublist _⟩,
            ⟨[scheme], rest.map Prod.fst, by simp, rfl⟩⟩
        | some auth =>
          have hbody : checkSchemesLoop auths roles false
              ((scheme, requiredScopes) :: rest) st result =
              (if getMissing requiredScopes auth.scopes ≠ [] then
                (⟨st.tried,
                  st.errors ++
                    [authFailMsg scheme "scopes" (getMissing requiredScopes auth.scopes)],
                  st.trace, st.evals ++ [scheme]⟩, none)
              else if getMissing roles auth.roles ≠ [] then
                (⟨st.tried,
                  st.errors ++ [authFailMsg scheme "roles" (getMissing roles auth.roles)],
                  st.trace, st.evals ++ [scheme]⟩, none)
              else
                checkSchemesLoop auths roles false rest
                  ⟨st.tried, st.errors, st.trace, st.evals ++ [scheme]⟩
                  (result ++ [(scheme, auth)])) := by
            simp only [checkSchemesLoop, hL]
            rfl
          rw [hbody]
          by_cases hms : getMissing requiredScopes auth.scopes ≠ []
          · rw [if_pos hms]
            exact ⟨⟨hNodup, hSome⟩, ⟨[], by simp, List.nil_sublist _⟩,
              ⟨[scheme], rest.map Prod.fst, by simp, rfl⟩⟩
          · rw [if_neg hms]
            by_cases hmr : getMissing roles auth.roles ≠ []
            · rw [if_pos hmr]
              exact ⟨⟨hNodup, hSome⟩, ⟨[], by simp, List.nil_sublist _⟩,
                ⟨[scheme], rest.map Prod.fst, by simp, rfl⟩⟩
            · rw [if_neg hmr]
              obtain ⟨hinv, ⟨t, ht, hts⟩, ⟨e, r, he, her⟩⟩ :=
                ih ⟨st.tried, st.errors, st.trace, st.evals ++ [scheme]⟩
                  (result ++ [(scheme, auth)]) hNodup hSome
              refine ⟨hinv, ⟨t, by simpa using ht, hts.cons _⟩,
                ⟨scheme :: e, r, by simpa using he, by simpa using her⟩⟩
      | none =>
        have hfresh : scheme ∉ st.trace := by
          intro hmem
          have := hSome scheme hmem
          rw [hL] at this
          exact absurd this (by simp)
        have hNodup2 : (st.trace ++ [scheme]).Nodup :=
          nodup_append_singleton hNodup hfresh
        cases hA : auths scheme with
        | none =>
          have hSome2 : ∀ s ∈ st.trace ++ [scheme],
              (jsLookup (st.tried ++ [(scheme, (none : Option Authenticated))]) s).isSome =
                true := by
            intro s hs
            rcases List.mem_append.mp hs with hs | hs
            · exact jsLookup_append_isSome _ _ _ (hSome s hs)
            · have hss : s = scheme := by simpa using hs
              subst hss
              rw [jsLookup_append, hL]
              simp [jsLookup]
          have hbody : checkSchemesLoop auths roles false
              ((scheme, requiredScopes) :: rest) st result =
              (⟨st.tried ++ [(scheme, none)], st.errors,
                st.trace ++ [scheme], st.evals ++ [scheme]⟩, none) := by
            simp only [checkSchemesLoop, hL, hA]
            rfl
          rw [hbody]
          exact ⟨⟨hNodup2, hSome2⟩, ⟨[scheme], by simp, by simp⟩,
            ⟨[scheme], rest.map Prod.fst, by simp, rfl⟩⟩
        | some auth =>
          have hSome2 : ∀ s ∈ st.trace ++ [scheme],
              (jsLookup (st.tried ++ [(scheme, some auth)]) s).isSome = true := by
            intro s hs
            rcases List.mem_append.mp hs with hs | hs
            · exact jsLookup_append_isSome _ _ _ (hSome s hs)
            · have hss : s = scheme := by simpa using hs
              subst hss
              rw [jsLookup_append, hL]
              simp [jsLookup]
          have hbody : checkSchemesLoop auths roles false
              ((scheme, requiredScopes) :: rest) st result =
              (if getMissing requiredScopes auth.scopes ≠ [] then
                (⟨st.tried ++ [(scheme, some auth)],
                  st.errors ++
                    [authFailMsg scheme "scopes" (getMissing requiredScopes auth.scopes)],
                  st.trace ++ [scheme], st.evals ++ [scheme]⟩, none)
              else if getMissing roles auth.roles ≠ [] then
                (⟨st.tried ++ [(scheme, some auth)],
                  st.errors ++ [authFailMsg scheme "roles" (getMissing roles auth.roles)],
                  st.trace ++ [scheme], st.evals ++ [scheme]⟩, none)
              else
                checkSchemesLoop auths roles false rest
                  ⟨st.tried ++ [(scheme, some auth)], st.errors,
                    st.trace ++ [scheme], st.evals ++ [scheme]⟩
                  (result ++ [(scheme, auth)])) := by
            simp only [checkSchemesLoop, hL, hA]
            rfl
          rw [hbody]
          by_cases hms : getMissing requiredScopes auth.scopes ≠ []
          · rw [if_pos hms]
            exact ⟨⟨hNodup2, hSome2⟩, ⟨[scheme], by simp, by simp⟩,
              ⟨[scheme], rest.map Prod.fst, by simp, rfl⟩⟩
          · rw [if_neg hms]
            by_cases hmr : getMissing roles auth.roles ≠ []
            · rw [if_pos hmr]
              exact ⟨⟨hNodup2, hSome2⟩, ⟨[scheme], by simp, by simp⟩,
                ⟨[scheme], rest.map Prod.fst, by simp, rfl⟩⟩
            · rw [if_neg hmr]
              obtain ⟨hinv, ⟨t, ht, hts⟩, ⟨e, r, he, her⟩⟩ :=
                ih ⟨st.tried ++ [(scheme, some auth)], st.errors,
                    st.trace ++ [scheme], st.evals ++ [scheme]⟩
                  (result ++ [(scheme, auth)]) hNodup2 hSome2
              refine ⟨hinv, ⟨scheme :: t, ?_, hts.cons₂ _⟩,
                ⟨scheme :: e, r, by simpa using he, by simpa using her⟩⟩
              rw [ht]
              simp

end Exegesis

namespace Exegesis

/-- The requirement loop of `Operation.authenticate` preserves the
trace/cache invariant, so the final invocation trace is duplicate-free. -/
theorem authenticateLoop_trace_spec (auths : String → Option Authenticated)
    (roles : List String) (finished : Bool) (reqs : List SecurityRequirement)
    (st : CheckState) (hNodup : st.trace.Nodup)
    (hSome : ∀ s ∈ st.trace, (jsLookup st.tried s).isSome = true) :
    (authenticateLoop auths roles finished reqs st).1.trace.Nodup ∧
    ∀ s ∈ (authenticateLoop auths roles finished reqs st).1.trace,
      (jsLookup (authenticateLoop auths roles finished reqs st).1.tried s).isSome =
        true := by
  induction reqs generalizing st with
  | nil => exact ⟨hNodup, hSome⟩
  | cons r rest ih =>
    obtain ⟨⟨h1, h2⟩, -, -⟩ :=
      checkSchemesLoop_trace_spec auths roles finished r st [] hNodup hSome
    rw [authenticateLoop]
    simp only [checkSecurityRequirement]
    cases hS : (checkSchemesLoop auths roles finished r st []).2 with
    | some res => exact ⟨h1, h2⟩
    | none =>
      cases finished with
      | true => exact ⟨h1, h2⟩
      | false => exact ih _ h1 h2

/-- C2: during one `Operation.authenticate` call the invocation trace of
external authenticators is duplicate-free (each scheme's authenticator runs
at most once per request, its result — falsy included — memoized in the
tried-schemes cache), and within one security-requirement alternative
(`_checkSecurityRequirement`) the authenticators are invoked in a
subsequence of the declared scheme order while the schemes are evaluated in
exactly a prefix of the declared order. -/
theorem c2_schemes_memoized_and_ordered (op : OperationSecurity)
    (auths : String → Option Authenticated) (finished : Bool)
    (req : SecurityRequirement) (st : CheckState)
    (hNodup : st.trace.Nodup)
    (hSome : ∀ s ∈ st.trace, (jsLookup st.tried s).isSome = true) :
    (authenticate op auths finished).2.Nodup ∧
    (∃ t, (checkSecurityRequirement auths op.requiredRoles finished req st).1.trace =
        st.trace ++ t ∧ t.Sublist (req.map Prod.fst)) ∧
    (∃ e r, (checkSecurityRequirement auths op.requiredRoles finished req st).1.evals =
        st.evals ++ e ∧ e ++ r = req.map Prod.fst) := by
  refine ⟨?_, ?_, ?_⟩
  · by_cases h : op.securityRequirements = []
    · simp [authenticate, h]
    · obtain ⟨h1, -⟩ := authenticateLoop_trace_spec auths op.requiredRoles finished
        op.securityRequirements ⟨[], [], [], []⟩ (by simp) (by simp)
      simp only [authenticate, if_neg h]
      cases hS : (authenticateLoop auths op.requiredRoles finished
          op.securityRequirements ⟨[], [], [], []⟩).2 with
      | some res => exact h1
      | none =>
        by_cases he : (authenticateLoop auths op.requiredRoles finished
            op.securityRequirements ⟨[], [], [], []⟩).1.errors ≠ []
        · rw [if_pos he]
          exact h1
        · rw [if_neg he]
          exact h1
  · exact (checkSchemesLoop_trace_spec auths op.requiredRoles finished req st []
      hNodup hSome).2.1
  · exact (checkSchemesLoop_trace_spec auths op.requiredRoles finished req st []
      hNodup hSome).2.2

/-- C2 witness: two alternatives both naming `basicAuth`, with failing
authenticators — `basicAuth` is invoked once and memoized, and the
single-alternative traces follow the declared order. -/
theorem c2_witness :
    (authenticate ⟨[[("basicAuth", []), ("oauth", ["admin"])], [("basicAuth", [])]], []⟩
        (fun _ => none) false).2.Nodup ∧
    (∃ t, (checkSecurityRequirement (fun _ => none) [] false
        [("basicAuth", []), ("oauth", ["admin"])] ⟨[], [], [], []⟩).1.trace =
          [] ++ t ∧
        t.Sublist (([("basicAuth", []), ("oauth", ["admin"])] :
          SecurityRequirement).map Prod.fst)) ∧
    (∃ e r, (checkSecurityRequirement (fun _ => none) [] false
        [("basicAuth", []), ("oauth", ["admin"])] ⟨[], [], [], []⟩).1.evals =
          [] ++ e ∧
        e ++ r = ([("basicAuth", []), ("oauth", ["admin"])] :
          SecurityRequirement).map Prod.fst) :=
  c2_schemes_memoized_and_ordered
    ⟨[[("basicAuth", []), ("oauth", ["admin"])], [("basicAuth", [])]], []⟩
    (fun _ => none) false [("basicAuth", []), ("oauth", ["admin"])]
    ⟨[], [], [], []⟩ (by simp) (by simp)

/-- C3: when the security requirements are non-empty and no alternative
succeeds, `Operation.authenticate` throws an HTTP 403 error whose message is
the newline-joined collected failure reasons when any alternative produced a
hard authentication failure, and otherwise lists the available scheme
combinations — a single-scheme alternative rendered as its scheme name, a
multi-scheme alternative as the names joined by `+` inside parentheses, and
the alternatives comma-joined. -/
theorem c3_no_alternative_succeeds_403 (op : OperationSecurity)
    (auths : String → Option Authenticated) (finished : Bool)
    (hne : op.securityRequirements ≠ [])
    (hfail : (authenticateLoop auths op.requiredRoles finished
      op.securityRequirements ⟨[], [], [], []⟩).2 = none) :
    (authenticate op auths finished).1 =
      (if (authenticateLoop auths op.requiredRoles finished
            op.securityRequirements ⟨[], [], [], []⟩).1.errors ≠ [] then
        AuthOutcome.httpError 403 (String.intercalate "\n"
          (authenticateLoop auths op.requiredRoles finished
            op.securityRequirements ⟨[], [], [], []⟩).1.errors)
      else
        AuthOutcome.httpError 403
          ("Must authenticate using one of the following schemes: " ++
            String.intercalate ", " (op.securityRequirements.map (fun requirement =>
              match requirement.map Prod.fst with
              | [s] => s
              | schemes => "(" ++ String.intercalate " + " schemes ++ ")")) ++
            ".")) := by
  simp only [authenticate, if_neg hne, hfail]
  by_cases he : (authenticateLoop auths op.requiredRoles finished
      op.securityRequirements ⟨[], [], [], []⟩).1.errors ≠ []
  · rw [if_pos he, if_pos he]
  · rw [if_neg he, if_neg he]
    rfl

/-- C3 witness: two single-scheme alternatives whose authenticators return
no credentials produce the 403 listing `basicAuth, oauth`. -/
theorem c3_witness :
    (authenticate ⟨[[("basicAuth", [])], [("oauth", ["admin"])]], []⟩
        (fun _ => none) false).1 =
      AuthOutcome.httpError 403
        "Must authenticate using one of the following schemes: basicAuth, oauth." :=
  (c3_no_alternative_succeeds_403 ⟨[[("basicAuth", [])], [("oauth", ["admin"])]], []⟩
    (fun _ => none) false (by decide) (by decide)).trans (by decide)

end Exegesis
